import Mathlib

/-!
Shallow embedding of the GraphQL query layer declared in
`src/routes/graphql/index.ts` of the repository.

The file embeds the data model (member types, users, profiles, posts and
subscription edges), the per-field resolvers, the root query fields and the
transport handler as executable Lean definitions, and proves the properties
claimed about them.  Persistence calls (`prisma.<entity>.findUnique` /
`findMany`) are embedded as lookups over an explicit database state.
-/

/-- A membership tier row (`memberType` table): enumerated id, discount and
monthly post limit.  The numeric payloads are carried as `Rat`/`Int`; no
resolver computes with them. -/
structure MemberTypeRec where
  id : String
  discount : Rat
  postsLimitPerMonth : Int
deriving DecidableEq, Repr

/-- A user row: id, display name and balance. -/
structure UserRec where
  id : String
  name : String
  balance : Rat
deriving DecidableEq, Repr

/-- A profile row: id, sex flag, birth year, owning user reference and
member-type reference (the fields the resolvers read: `userId`,
`memberTypeId`). -/
structure ProfileRec where
  id : String
  isMale : Bool
  yearOfBirth : Int
  userId : String
  memberTypeId : String
deriving DecidableEq, Repr

/-- A post row: id, title, content and author reference (`authorId`). -/
structure PostRec where
  id : String
  title : String
  content : String
  authorId : String
deriving DecidableEq, Repr

/-- Modelled from the spec: the subscription edge, an ordered pair of a
subscriber identifier and a target (author) identifier.  The Prisma model
(`SubscribersOnAuthors`) is not under `src/`; the spec describes the edge as
the pair (subscriber identifier, target identifier), and the resolver code
filters edges by their `subscriberId` and `authorId` columns. -/
structure SubEdge where
  subscriberId : String
  authorId : String
deriving DecidableEq, Repr

/-- The persistence-layer state the resolvers read: one collection per
entity plus the subscription edges. -/
structure DbState where
  memberTypes : List MemberTypeRec
  users : List UserRec
  profiles : List ProfileRec
  posts : List PostRec
  subscriptions : List SubEdge
deriving DecidableEq, Repr

/-- JavaScript truthiness of a possibly-absent string value, as used by the
guard `if (parent.id)` in `User.posts`: `undefined` and the empty string are
falsy. -/
def jsTruthy : Option String → Bool
  | none => false
  | some s => s != ""

/-- A Prisma scalar filter applied with a possibly-`undefined` value: an
`undefined` filter value means the condition is dropped (matches
everything), a present value means equality. -/
def optEq : Option String → String → Bool
  | none, _ => true
  | some v, x => v == x

/-- Resolver of `Profile.memberType` (index.ts lines 54-61):
`prisma.memberType.findUnique({ where: { id: parent.memberTypeId } })`. -/
def profileMemberTypeResolve (db : DbState) (parent : ProfileRec) :
    Option MemberTypeRec :=
  db.memberTypes.find? (fun m => m.id == parent.memberTypeId)

/-- Resolver of `User.profile` (index.ts lines 73-80):
`prisma.profile.findUnique({ where: { userId: parent.id } })`.  The parent's
id is carried as `Option String` since a resolver may receive a parent value
without an id. -/
def userProfileResolve (db : DbState) (parentId : Option String) :
    Option ProfileRec :=
  db.profiles.find? (fun p => optEq parentId p.userId)

/-- Resolver of `User.posts` (index.ts lines 81-91): when `parent.id` is
truthy it returns `prisma.post.findMany({ where: { authorId: parent.id } })`,
otherwise it returns `null`. -/
def userPostsResolve (db : DbState) (parentId : Option String) :
    Option (List PostRec) :=
  if jsTruthy parentId then
    some (db.posts.filter (fun p => optEq parentId p.authorId))
  else
    none

/-- The collection lookup performed by `User.userSubscribedTo` (index.ts
lines 92-105): `prisma.user.findMany` filtered to users having some
subscription edge, in their `subscribedToUser` relation, whose
`subscriberId` equals the parent's id.  Modelled from the spec: the Prisma
schema is not under `src/`; on a user `w`, the relation `subscribedToUser`
("those subscribed to this user") holds the edges with `w` as target
(author), so the filter keeps the users `w` for which some edge has
`authorId = w.id` and `subscriberId = parent.id`. -/
def userSubscribedToLookup (db : DbState) (parentId : Option String) :
    List UserRec :=
  db.users.filter (fun w =>
    db.subscriptions.any (fun e =>
      e.authorId == w.id && optEq parentId e.subscriberId))

/-- Resolver of `User.userSubscribedTo`: unconditionally returns the
`findMany` result (an array, never `null`). -/
def userSubscribedToResolve (db : DbState) (parentId : Option String) :
    Option (List UserRec) :=
  some (userSubscribedToLookup db parentId)

/-- The collection lookup performed by `User.subscribedToUser` (index.ts
lines 106-119): users having some subscription edge, in their
`userSubscribedTo` relation, whose `authorId` equals the parent's id.
Modelled from the spec: on a user `w`, the relation `userSubscribedTo`
("users this user subscribed to") holds the edges with `w` as subscriber,
so the filter keeps the users `w` for which some edge has
`subscriberId = w.id` and `authorId = parent.id`. -/
def subscribedToUserLookup (db : DbState) (parentId : Option String) :
    List UserRec :=
  db.users.filter (fun w =>
    db.subscriptions.any (fun e =>
      e.subscriberId == w.id && optEq parentId e.authorId))

/-- Resolver of `User.subscribedToUser`: unconditionally returns the
`findMany` result (an array, never `null`). -/
def subscribedToUserResolve (db : DbState) (parentId : Option String) :
    Option (List UserRec) :=
  some (subscribedToUserLookup db parentId)

/-- Resolver of `RootQuery.memberTypes` (index.ts lines 151-154):
`prisma.memberType.findMany()` — always the full collection. -/
def rootMemberTypesResolve (db : DbState) : Option (List MemberTypeRec) :=
  some db.memberTypes

/-- Resolver of `RootQuery.memberType` (index.ts lines 155-164):
`prisma.memberType.findUnique({ where: { id: args.id } })`.  The `id`
argument is declared with the bare enum type (no `GraphQLNonNull`), so the
argument value may be absent. -/
def rootMemberTypeResolve (db : DbState) (argId : Option String) :
    Option MemberTypeRec :=
  db.memberTypes.find? (fun m => optEq argId m.id)

/-- Resolver of `RootQuery.users` (index.ts lines 165-168). -/
def rootUsersResolve (db : DbState) : Option (List UserRec) :=
  some db.users

/-- Resolver of `RootQuery.user` (index.ts lines 169-180):
`prisma.user.findUnique({ where: { id: args.id } })`; the argument is
non-null, hence a plain `String`. -/
def rootUserResolve (db : DbState) (argId : String) : Option UserRec :=
  db.users.find? (fun u => u.id == argId)

/-- Resolver of `RootQuery.posts` (index.ts lines 181-184). -/
def rootPostsResolve (db : DbState) : Option (List PostRec) :=
  some db.posts

/-- Resolver of `RootQuery.post` (index.ts lines 185-197). -/
def rootPostResolve (db : DbState) (argId : String) : Option PostRec :=
  db.posts.find? (fun p => p.id == argId)

/-- Resolver of `RootQuery.profiles` (index.ts lines 198-201). -/
def rootProfilesResolve (db : DbState) : Option (List ProfileRec) :=
  some db.profiles

/-- Resolver of `RootQuery.profile` (index.ts lines 202-214). -/
def rootProfileResolve (db : DbState) (argId : String) : Option ProfileRec :=
  db.profiles.find? (fun p => p.id == argId)

/-- The nested resolution `user(id){ profile { memberType } }` projected to
the member type's id: `User.profile` followed by `Profile.memberType`,
keeping only the `id` field. -/
def userProfileMemberTypeId (db : DbState) (parentId : Option String) :
    Option String :=
  (userProfileResolve db parentId).bind (fun p =>
    (profileMemberTypeResolve db p).map (fun m => m.id))

/-- A GraphQL type reference as written in the schema declaration. -/
inductive GqlTypeRef where
  | named : String → GqlTypeRef
  | nonNull : GqlTypeRef → GqlTypeRef
  | listOf : GqlTypeRef → GqlTypeRef
deriving DecidableEq, Repr

/-- Whether a type reference is wrapped in `GraphQLNonNull` at the top. -/
def isNonNullRef : GqlTypeRef → Bool
  | .nonNull _ => true
  | _ => false

/-- An argument declaration of a schema field: name and declared type. -/
structure ArgDecl where
  name : String
  type : GqlTypeRef
deriving DecidableEq, Repr

/-- A field declaration of the root query object: name, result type and
argument list. -/
structure RootFieldDecl where
  name : String
  type : GqlTypeRef
  args : List ArgDecl
deriving DecidableEq, Repr

/-- The root query object's field declarations, transcribed from the
`GraphQLSchema` construction (index.ts lines 147-217).  Note that
`memberType`'s `id` argument is declared with the bare `MemberTypeId` enum
type, while `user`, `post` and `profile` wrap their `id` argument in
`GraphQLNonNull(UUIDType)`. -/
def rootQueryFields : List RootFieldDecl :=
  [ ⟨"memberTypes", .listOf (.named "memberType"), []⟩,
    ⟨"memberType", .named "memberType", [⟨"id", .named "MemberTypeId"⟩]⟩,
    ⟨"users", .listOf (.named "user"), []⟩,
    ⟨"user", .named "user", [⟨"id", .nonNull (.named "UUID")⟩]⟩,
    ⟨"posts", .listOf (.nonNull (.named "Post")), []⟩,
    ⟨"post", .named "Post", [⟨"id", .nonNull (.named "UUID")⟩]⟩,
    ⟨"profiles", .listOf (.named "Profile"), []⟩,
    ⟨"profile", .named "Profile", [⟨"id", .nonNull (.named "UUID")⟩]⟩ ]

/-- Whether the root query object declares a field of the given name with
exactly the given argument list. -/
def hasRootField (fieldName : String) (args : List ArgDecl) : Bool :=
  rootQueryFields.any (fun f => f.name == fieldName && f.args == args)

/-- A call a resolver issues against the persistence layer, tagged with the
entity collection it addresses.  The read calls are the ones the source ever
issues; the write constructors exist so that read-onlyness is a real
property of the traces. -/
inductive PrismaCall where
  | findUnique : String → PrismaCall
  | findMany : String → PrismaCall
  | create : String → PrismaCall
  | update : String → PrismaCall
  | deleteRec : String → PrismaCall
deriving DecidableEq, Repr

/-- Whether a persistence call is a pure read. -/
def PrismaCall.isRead : PrismaCall → Bool
  | .findUnique _ => true
  | .findMany _ => true
  | _ => false

/-- Effect of one persistence call on the state: a read leaves the state
observably unchanged; a write forfeits the preservation guarantee
(modelled as `none`, an unknown successor state). -/
def applyCall (db : DbState) : PrismaCall → Option DbState
  | .findUnique _ => some db
  | .findMany _ => some db
  | _ => none

/-- The persistence calls each field resolver of the schema may issue, one
entry per resolver with a resolve function (index.ts lines 54-119 and
147-217).  Each resolver's body is a single `findUnique`/`findMany` call;
`User.posts` skips its call when the parent id guard fails, so its trace is
the one call it may issue. -/
def resolverCallTraces : List (String × List PrismaCall) :=
  [ ("Profile.memberType", [.findUnique "memberType"]),
    ("User.profile", [.findUnique "profile"]),
    ("User.posts", [.findMany "post"]),
    ("User.userSubscribedTo", [.findMany "user"]),
    ("User.subscribedToUser", [.findMany "user"]),
    ("RootQuery.memberTypes", [.findMany "memberType"]),
    ("RootQuery.memberType", [.findUnique "memberType"]),
    ("RootQuery.users", [.findMany "user"]),
    ("RootQuery.user", [.findUnique "user"]),
    ("RootQuery.posts", [.findMany "post"]),
    ("RootQuery.post", [.findUnique "post"]),
    ("RootQuery.profiles", [.findMany "profile"]),
    ("RootQuery.profile", [.findUnique "profile"]) ]

/-- Outcome of resolving one root field under GraphQL execution: the field's
data and the field errors contributed to the response's `errors` list.  A
resolver that completes without throwing contributes no error, and a `null`
result on a nullable field is not an error; every resolver embedded here is
a total function, so running one contributes an empty error list. -/
structure FieldOutcome (α : Type) where
  data : Option α
  errors : List String
deriving DecidableEq, Repr

/-- GraphQL execution of a single non-throwing root field resolver: the
resolver's value becomes the data, no entry is added to `errors`. -/
def runSingular {α : Type} (r : Option α) : FieldOutcome α :=
  ⟨r, []⟩

/-- The JSON body of a request to the endpoint:
`{ query: string, variables?: object }`. -/
structure GqlRequestBody where
  query : String
  varValues : Option (List (String × String))
deriving DecidableEq, Repr

/-- An incoming HTTP request: the parsed body plus transport-level data the
handler never reads. -/
structure HttpRequest where
  body : GqlRequestBody
  headers : List (String × String)
  url : String
  method : String
deriving DecidableEq, Repr

/-- A GraphQL response `{ data?, errors? }`, with the data left as an opaque
serialized value. -/
structure GqlResponse where
  data : Option String
  errors : List String
deriving DecidableEq, Repr

/-- The route handler (index.ts lines 137-144): it calls
`graphql({ schema, source: req.body.query, contextValue: { prisma },
variableValues: req.body.varValues })` and returns the result.  The graphql
library execution is abstracted as a function `exec` of the persistence
handle, the query text and the variables; the compiled schema is a fixed
constant baked into `exec`. -/
def handler
    (exec : DbState → String → Option (List (String × String)) → GqlResponse)
    (db : DbState) (req : HttpRequest) : GqlResponse :=
  exec db req.body.query req.body.varValues

/-- Follows the claim's words (C1): the set of users W such that a
subscription edge exists with the parent user as target and W at the other
end (as subscriber). -/
def claimedUserSubscribedTo (db : DbState) (uid : String) : List UserRec :=
  db.users.filter (fun w =>
    db.subscriptions.any (fun e =>
      e.subscriberId == w.id && e.authorId == uid))

/-- Follows the claim's words (C1): the set of users W such that a
subscription edge exists with the parent user as subscriber and W at the
other end (as target). -/
def claimedSubscribedToUser (db : DbState) (uid : String) : List UserRec :=
  db.users.filter (fun w =>
    db.subscriptions.any (fun e =>
      e.subscriberId == uid && e.authorId == w.id))

/-- Example user Alice. -/
def userA : UserRec := ⟨"a", "Alice", 0⟩

/-- Example user Bob. -/
def userB : UserRec := ⟨"b", "Bob", 0⟩

/-- Example post authored by Alice. -/
def postA : PostRec := ⟨"p1", "Title", "Content", "a"⟩

/-- Example member type. -/
def mtBasic : MemberTypeRec := ⟨"BASIC", 1, 10⟩

/-- Example profile owned by Alice with member type BASIC. -/
def profA : ProfileRec := ⟨"pr1", true, 1990, "a", "BASIC"⟩

/-- Example state: Alice and Bob, one subscription edge in which Alice is
the subscriber and Bob the target (author), one post by Alice, Alice's
profile and the BASIC member type. -/
def exampleDb : DbState :=
  ⟨[mtBasic], [userA, userB], [profA], [postA], [⟨"a", "b"⟩]⟩

/-- The empty persistence state. -/
def emptyDb : DbState := ⟨[], [], [], [], []⟩

/-- A constant graphql execution function, used to instantiate the handler
on concrete inputs. -/
def constExec :
    DbState → String → Option (List (String × String)) → GqlResponse :=
  fun _ _ _ => ⟨none, []⟩

/-- Example request: a query with one set of transport-level data. -/
def reqA : HttpRequest := ⟨⟨"users-query", none⟩, [("x-a", "1")], "/", "POST"⟩

/-- Example request: the same body as `reqA` but different headers and
url. -/
def reqB : HttpRequest :=
  ⟨⟨"users-query", none⟩, [("x-b", "2")], "/graphql", "POST"⟩

/-- Membership in the `userSubscribedTo` lookup result: exactly the stored
users for which an edge exists with the parent as subscriber and the member
as target (author). -/
theorem mem_userSubscribedToLookup (db : DbState) (uid : String)
    (w : UserRec) :
    w ∈ userSubscribedToLookup db (some uid) ↔
      w ∈ db.users ∧ ∃ e ∈ db.subscriptions,
        e.subscriberId = uid ∧ e.authorId = w.id := by
  simp only [userSubscribedToLookup, List.mem_filter, List.any_eq_true,
    Bool.and_eq_true, beq_iff_eq, optEq]
  constructor
  · rintro ⟨hw, e, he, hea, hes⟩
    exact ⟨hw, e, he, hes.symm, hea⟩
  · rintro ⟨hw, e, he, hes, hea⟩
    exact ⟨hw, e, he, hea, hes.symm⟩

/-- Membership in the `subscribedToUser` lookup result: exactly the stored
users for which an edge exists with the member as subscriber and the parent
as target (author). -/
theorem mem_subscribedToUserLookup (db : DbState) (uid : String)
    (w : UserRec) :
    w ∈ subscribedToUserLookup db (some uid) ↔
      w ∈ db.users ∧ ∃ e ∈ db.subscriptions,
        e.subscriberId = w.id ∧ e.authorId = uid := by
  simp only [subscribedToUserLookup, List.mem_filter, List.any_eq_true,
    Bool.and_eq_true, beq_iff_eq, optEq]
  constructor
  · rintro ⟨hw, e, he, hes, hea⟩
    exact ⟨hw, e, he, hes, hea.symm⟩
  · rintro ⟨hw, e, he, hes, hea⟩
    exact ⟨hw, e, he, hes, hea.symm⟩

/-- A `find?` whose predicate holds of a member that is unique with that
property returns exactly that member. -/
theorem find?_eq_some_of_unique {α : Type} (p : α → Bool) :
    ∀ (l : List α) (a : α), a ∈ l → p a = true →
      (∀ b ∈ l, p b = true → b = a) → l.find? p = some a := by
  intro l a ha hpa huniq
  induction l with
  | nil => cases ha
  | cons x xs ih =>
    by_cases hx : p x = true
    · rw [List.find?_cons_of_pos _ hx,
        huniq x (List.mem_cons_self x xs) hx]
    · rw [List.find?_cons_of_neg _ hx]
      rcases List.mem_cons.mp ha with h | h
      · exact absurd (h ▸ hpa) hx
      · exact ih h (fun b hb hpb => huniq b (List.mem_cons_of_mem _ hb) hpb)

/-- C1, counterexample.  In `exampleDb` the only subscription edge has user
"a" as subscriber and user "b" as target; the `userSubscribedTo` resolver
for "a" returns `[userB]`, while the claim's set — users at the other end of
an edge with "a" as target — is empty, so the two disagree. -/
theorem claim1_counterexample :
    userSubscribedToLookup exampleDb (some "a") = [userB] ∧
    claimedUserSubscribedTo exampleDb "a" = [] ∧
    userSubscribedToLookup exampleDb (some "a") ≠
      claimedUserSubscribedTo exampleDb "a" := by decide

/-- C1, amended.  For every user id `uid`, `userSubscribedTo` resolves to
exactly the stored users `w` such that a subscription edge exists with `uid`
as subscriber and `w` as target, and `subscribedToUser` resolves to exactly
the stored users `w` such that a subscription edge exists with `w` as
subscriber and `uid` as target. -/
theorem claim1_subscription_directions (db : DbState) (uid : String)
    (w : UserRec) :
    (w ∈ userSubscribedToLookup db (some uid) ↔
      w ∈ db.users ∧ ∃ e ∈ db.subscriptions,
        e.subscriberId = uid ∧ e.authorId = w.id) ∧
    (w ∈ subscribedToUserLookup db (some uid) ↔
      w ∈ db.users ∧ ∃ e ∈ db.subscriptions,
        e.subscriberId = w.id ∧ e.authorId = uid) :=
  ⟨mem_userSubscribedToLookup db uid w, mem_subscribedToUserLookup db uid w⟩

/-- C2.  The two subscription fields are inverse relations: if user `a`
appears in the `subscribedToUser` list of user `b`, then `b` appears in the
`userSubscribedTo` list of `a`. -/
theorem claim2_inverse_relations (db : DbState) (a b : UserRec)
    (hb : b ∈ db.users)
    (ha : a ∈ subscribedToUserLookup db (some b.id)) :
    b ∈ userSubscribedToLookup db (some a.id) := by
  rcases (mem_subscribedToUserLookup db b.id a).mp ha with ⟨_, e, he, hes, hea⟩
  exact (mem_userSubscribedToLookup db a.id b).mpr ⟨hb, e, he, hes, hea⟩

/-- Witness for C2 on the example state. -/
theorem claim2_witness :
    userB ∈ exampleDb.users ∧
    userA ∈ subscribedToUserLookup exampleDb (some userB.id) ∧
    userB ∈ userSubscribedToLookup exampleDb (some userA.id) :=
  ⟨by decide, by decide,
    claim2_inverse_relations exampleDb userA userB (by decide) (by decide)⟩

/-- C3.  For every identifier not present in the relevant collection, each
singular root lookup resolves to null and contributes no error, and each
plural root lookup resolves to a list (the full collection), never null. -/
theorem claim3_missing_ids_null_plural_lists (db : DbState) (anId : String)
    (hu : anId ∉ db.users.map UserRec.id)
    (hp : anId ∉ db.posts.map PostRec.id)
    (hpr : anId ∉ db.profiles.map ProfileRec.id)
    (hm : anId ∉ db.memberTypes.map MemberTypeRec.id) :
    runSingular (rootUserResolve db anId) = ⟨none, []⟩ ∧
    runSingular (rootPostResolve db anId) = ⟨none, []⟩ ∧
    runSingular (rootProfileResolve db anId) = ⟨none, []⟩ ∧
    runSingular (rootMemberTypeResolve db (some anId)) = ⟨none, []⟩ ∧
    (rootUsersResolve db).isSome = true ∧
    (rootPostsResolve db).isSome = true ∧
    (rootProfilesResolve db).isSome = true ∧
    (rootMemberTypesResolve db).isSome = true := by
  simp only [List.mem_map, not_exists, not_and] at hu hp hpr hm
  refine ⟨?_, ?_, ?_, ?_, rfl, rfl, rfl, rfl⟩
  · have : db.users.find? (fun u => u.id == anId) = none := by
      rw [List.find?_eq_none]
      intro x hx
      simp only [beq_iff_eq]
      exact hu x hx
    simp [runSingular, rootUserResolve, this]
  · have : db.posts.find? (fun p => p.id == anId) = none := by
      rw [List.find?_eq_none]
      intro x hx
      simp only [beq_iff_eq]
      exact hp x hx
    simp [runSingular, rootPostResolve, this]
  · have : db.profiles.find? (fun p => p.id == anId) = none := by
      rw [List.find?_eq_none]
      intro x hx
      simp only [beq_iff_eq]
      exact hpr x hx
    simp [runSingular, rootProfileResolve, this]
  · have : db.memberTypes.find? (fun m => optEq (some anId) m.id) = none := by
      rw [List.find?_eq_none]
      intro x hx
      simp only [optEq, beq_iff_eq]
      exact fun h => hm x hx h.symm
    simp [runSingular, rootMemberTypeResolve, this]

/-- Witness for C3 on the empty state. -/
theorem claim3_witness :
    ("missing" ∉ emptyDb.users.map UserRec.id) ∧
    runSingular (rootUserResolve emptyDb "missing") = ⟨none, []⟩ ∧
    (rootUsersResolve emptyDb).isSome = true :=
  ⟨by decide,
    (claim3_missing_ids_null_plural_lists emptyDb "missing"
      (by decide) (by decide) (by decide) (by decide)).1,
    (claim3_missing_ids_null_plural_lists emptyDb "missing"
      (by decide) (by decide) (by decide) (by decide)).2.2.2.2.1⟩

/-- C4, counterexample.  A parent whose id is the empty string has an
identifier (it does not lack one entirely), yet `User.posts` resolves to
null rather than to the matching collection, because the source's guard
`if (parent.id)` uses JavaScript truthiness and the empty string is
falsy. -/
theorem claim4_counterexample :
    (some "" : Option String) ≠ none ∧
    userPostsResolve emptyDb (some "") = none ∧
    userPostsResolve emptyDb (some "") ≠
      some (emptyDb.posts.filter (fun p => optEq (some "") p.authorId)) := by
  decide

/-- C4, amended.  `User.posts` returns the collection of posts whose author
reference matches the parent's identifier when that identifier is a
non-empty string, and returns null when the identifier is absent or is the
empty string (JavaScript-falsy). -/
theorem claim4_posts_guard (db : DbState) (s : String) (hs : s ≠ "") :
    userPostsResolve db (some s) =
      some (db.posts.filter (fun p => s == p.authorId)) ∧
    userPostsResolve db none = none ∧
    userPostsResolve db (some "") = none := by
  refine ⟨?_, ?_, ?_⟩
  · simp [userPostsResolve, jsTruthy, optEq, bne_iff_ne, hs]
  · simp [userPostsResolve, jsTruthy]
  · simp [userPostsResolve, jsTruthy]

/-- Witness for C4 on the example state. -/
theorem claim4_witness :
    ("a" : String) ≠ "" ∧
    userPostsResolve exampleDb (some "a") = some [postA] := by
  have h := claim4_posts_guard exampleDb "a" (by decide)
  refine ⟨by decide, ?_⟩
  rw [h.1]
  decide

/-- C5, counterexample.  The root query object's `memberType` field is
declared with an `id` argument of the bare enum type `MemberTypeId`, not
wrapped in `GraphQLNonNull`; so not every singular field's identifier
argument is declared required. -/
theorem claim5_counterexample :
    hasRootField "memberType" [⟨"id", .named "MemberTypeId"⟩] = true ∧
    (∀ f ∈ rootQueryFields, f.name = "memberType" →
      ¬ ∃ a ∈ f.args, a.name = "id" ∧ isNonNullRef a.type = true) := by
  decide

/-- C5, amended.  For each entity the root query object exposes a singular
field taking an `id` argument and returning one-or-none, and a plural field
taking no arguments and returning the full collection; the `id` argument is
declared non-null for `user`, `post` and `profile`, but `memberType`
declares it with the nullable enum type. -/
theorem claim5_root_schema_shape :
    ∀ (db : DbState) (anId : String),
      (hasRootField "user" [⟨"id", .nonNull (.named "UUID")⟩] = true ∧
       hasRootField "post" [⟨"id", .nonNull (.named "UUID")⟩] = true ∧
       hasRootField "profile" [⟨"id", .nonNull (.named "UUID")⟩] = true ∧
       hasRootField "memberType" [⟨"id", .named "MemberTypeId"⟩] = true ∧
       isNonNullRef (.named "MemberTypeId") = false ∧
       hasRootField "users" [] = true ∧
       hasRootField "posts" [] = true ∧
       hasRootField "profiles" [] = true ∧
       hasRootField "memberTypes" [] = true) ∧
      rootUsersResolve db = some db.users ∧
      rootPostsResolve db = some db.posts ∧
      rootProfilesResolve db = some db.profiles ∧
      rootMemberTypesResolve db = some db.memberTypes ∧
      (∀ u, rootUserResolve db anId = some u →
        u ∈ db.users ∧ u.id = anId) ∧
      (∀ p, rootPostResolve db anId = some p →
        p ∈ db.posts ∧ p.id = anId) ∧
      (∀ pr, rootProfileResolve db anId = some pr →
        pr ∈ db.profiles ∧ pr.id = anId) ∧
      (∀ m, rootMemberTypeResolve db (some anId) = some m →
        m ∈ db.memberTypes ∧ m.id = anId) := by
  intro db anId
  refine ⟨by decide, rfl, rfl, rfl, rfl, ?_, ?_, ?_, ?_⟩
  · intro u h
    exact ⟨List.mem_of_find?_eq_some h, by simpa using List.find?_some h⟩
  · intro p h
    exact ⟨List.mem_of_find?_eq_some h, by simpa using List.find?_some h⟩
  · intro pr h
    exact ⟨List.mem_of_find?_eq_some h, by simpa using List.find?_some h⟩
  · intro m h
    refine ⟨List.mem_of_find?_eq_some h, ?_⟩
    have := List.find?_some h
    simp only [optEq, beq_iff_eq] at this
    exact this.symm

/-- Witness for C5 on the example state. -/
theorem claim5_witness :
    rootUserResolve exampleDb "a" = some userA ∧
    (userA ∈ exampleDb.users ∧ userA.id = "a") :=
  ⟨by decide,
    (claim5_root_schema_shape exampleDb "a").2.2.2.2.2.1 userA (by decide)⟩

/-- C6.  For every identifier of a user existing in storage, the root `user`
lookup resolves to a non-null object whose id equals the input. -/
theorem claim6_user_lookup_hit (db : DbState) (anId : String)
    (h : ∃ u ∈ db.users, u.id = anId) :
    ∃ w, rootUserResolve db anId = some w ∧ w.id = anId := by
  have hs : (db.users.find? (fun u => u.id == anId)).isSome := by
    rw [List.find?_isSome]
    rcases h with ⟨u, hu, hid⟩
    exact ⟨u, hu, by simp [hid]⟩
  rcases Option.isSome_iff_exists.mp hs with ⟨w, hw⟩
  exact ⟨w, hw, by simpa using List.find?_some hw⟩

/-- Witness for C6 on the example state. -/
theorem claim6_witness :
    (∃ u ∈ exampleDb.users, u.id = "a") ∧
    ∃ w, rootUserResolve exampleDb "a" = some w ∧ w.id = "a" :=
  ⟨⟨userA, by decide, by decide⟩,
    claim6_user_lookup_hit exampleDb "a" ⟨userA, by decide, by decide⟩⟩

/-- C7.  For a user owning a profile (unique for that user) whose
member-type reference matches an existing member type, the nested
resolution `user.profile.memberType.id` yields exactly that stored
member-type reference. -/
theorem claim7_nested_member_type (db : DbState) (uid : String)
    (p : ProfileRec) (hp : p ∈ db.profiles) (hpu : p.userId = uid)
    (huniq : ∀ q ∈ db.profiles, q.userId = uid → q = p)
    (hm : ∃ m ∈ db.memberTypes, m.id = p.memberTypeId) :
    userProfileMemberTypeId db (some uid) = some p.memberTypeId := by
  have hfind : userProfileResolve db (some uid) = some p := by
    apply find?_eq_some_of_unique _ _ _ hp
    · simp [optEq, hpu]
    · intro q hq hpq
      apply huniq q hq
      have : uid = q.userId := by simpa [optEq] using hpq
      exact this.symm
  have hms : (db.memberTypes.find?
      (fun m => m.id == p.memberTypeId)).isSome := by
    rw [List.find?_isSome]
    rcases hm with ⟨m, hmm, hmid⟩
    exact ⟨m, hmm, by simp [hmid]⟩
  rcases Option.isSome_iff_exists.mp hms with ⟨m', hm'⟩
  have hid : m'.id = p.memberTypeId := by simpa using List.find?_some hm'
  have hpm : profileMemberTypeResolve db p = some m' := hm'
  unfold userProfileMemberTypeId
  rw [hfind]
  show (profileMemberTypeResolve db p).map (fun m => m.id) =
    some p.memberTypeId
  rw [hpm]
  show some m'.id = some p.memberTypeId
  rw [hid]

/-- Witness for C7 on the example state. -/
theorem claim7_witness :
    (profA ∈ exampleDb.profiles ∧ profA.userId = "a" ∧
      mtBasic ∈ exampleDb.memberTypes ∧ mtBasic.id = profA.memberTypeId) ∧
    userProfileMemberTypeId exampleDb (some "a") = some profA.memberTypeId := by
  refine ⟨⟨by decide, by decide, by decide, by decide⟩,
    claim7_nested_member_type exampleDb "a" profA (by decide) (by decide)
      ?_ ⟨mtBasic, by decide, by decide⟩⟩
  intro q hq _
  simpa [exampleDb] using hq

/-- C8.  Every field resolver of the schema is side-effect-free: each
resolver's persistence-call trace consists only of read calls, and applying
the trace to any persistence state leaves the state unchanged. -/
theorem claim8_resolvers_read_only (db : DbState)
    (entry : String × List PrismaCall) (h : entry ∈ resolverCallTraces) :
    entry.2.all PrismaCall.isRead = true ∧
    List.foldlM applyCall db entry.2 = some db := by
  fin_cases h <;> exact ⟨rfl, rfl⟩

/-- Witness for C8 on the first resolver trace and the empty state. -/
theorem claim8_witness :
    (("Profile.memberType", [PrismaCall.findUnique "memberType"]) ∈
      resolverCallTraces) ∧
    [PrismaCall.findUnique "memberType"].all PrismaCall.isRead = true ∧
    List.foldlM applyCall emptyDb [PrismaCall.findUnique "memberType"] =
      some emptyDb := by
  have h := claim8_resolvers_read_only emptyDb
    ("Profile.memberType", [PrismaCall.findUnique "memberType"]) (by decide)
  exact ⟨by decide, h.1, h.2⟩

/-- C9.  The two subscription fields resolve unconditionally to the result
of their collection lookup — a list, never null — for every parent id,
including an absent or empty one; `User.posts`, by contrast, resolves to
null for those parents. -/
theorem claim9_subscription_fields_unguarded :
    ∀ (db : DbState) (parentId : Option String),
      userSubscribedToResolve db parentId =
        some (userSubscribedToLookup db parentId) ∧
      subscribedToUserResolve db parentId =
        some (subscribedToUserLookup db parentId) ∧
      (userSubscribedToResolve db parentId).isSome = true ∧
      (subscribedToUserResolve db parentId).isSome = true ∧
      userPostsResolve db none = none ∧
      userPostsResolve db (some "") = none := by
  intro db parentId
  refine ⟨rfl, rfl, rfl, rfl, ?_, ?_⟩
  · simp [userPostsResolve, jsTruthy]
  · simp [userPostsResolve, jsTruthy]

/-- C10.  The handler consults nothing besides the request body's query and
variables, the compiled schema and the persistence handle: two requests
with identical bodies produce identical responses, whatever else differs
about them. -/
theorem claim10_handler_determinism
    (exec : DbState → String → Option (List (String × String)) → GqlResponse)
    (db : DbState) (r1 r2 : HttpRequest)
    (hq : r1.body.query = r2.body.query)
    (hv : r1.body.varValues = r2.body.varValues) :
    handler exec db r1 = handler exec db r2 := by
  simp [handler, hq, hv]

/-- Witness for C10 on two requests sharing a body but differing in headers
and url. -/
theorem claim10_witness :
    reqA.body.query = reqB.body.query ∧
    reqA.body.varValues = reqB.body.varValues ∧
    reqA ≠ reqB ∧
    handler constExec emptyDb reqA = handler constExec emptyDb reqB :=
  ⟨rfl, rfl, by decide,
    claim10_handler_determinism constExec emptyDb reqA reqB rfl rfl⟩
